import Mathlib

/-!
Verification of the DBC signal encode/decode accessors of `ac_can.c`.

The C file is a flat enumeration of per-signal getter/setter pairs, all
instances of one textual template differing only in constants
(message id, byte/bit position of the walking loop, bit length, scale,
offset, physical bounds).  We embed the template once, parameterized by a
`SignalDesc` record, and instantiate it with the 57 descriptors transcribed
from the source.  Physical-value arithmetic (done in `float`/`double` in C)
is modelled exactly over `ℚ`; every numeric computation relevant to the
statements below is exact in both models.  Machine-integer truncation at
assignments (`uint8_t`, `uint64_t`) is modelled by explicit `% 2 ^ 8` /
`% 2 ^ 64`, and bit reads beyond a value's width follow C shift semantics
(`(data >> pos) & 1` of a promoted byte).
-/

namespace AcCan

/-- `CAN_Frame` from `ac_can.h`: a 32-bit identifier, a data-length code and
an 8-byte payload. -/
structure CAN_Frame where
  id : Nat
  dlc : Nat
  data : Fin 8 → Nat

/-- The per-signal constants of one getter/setter pair of `ac_can.c`:
expected message id, the `byte_pos`/`bit_pos` loop bases, the loop bound,
and the affine transform with its physical bounds. -/
structure SignalDesc where
  message_id : Nat
  base_byte : Nat
  base_bit : Nat
  bit_length : Nat
  scale : ℚ
  offset : ℚ
  min : ℚ
  max : ℚ
deriving DecidableEq

/-- `GET_BIT(data, pos)` of `ac_can.c`: `((data) >> (pos)) & 0x01`. -/
def GET_BIT (data pos : Nat) : Nat := (data >>> pos) &&& 1

/-- `SET_BIT(data, pos, value)` of `ac_can.c`:
`data = (data & ~(1UL << pos)) | (value << pos)`, where the assignment
truncates to the width `w` of the target lvalue (8 for a `uint8_t` payload
byte, 64 for the `uint64_t` raw accumulator). -/
def SET_BIT (w data pos v : Nat) : Nat :=
  ((data &&& ((2 ^ 64 - 1) ^^^ (1 <<< pos))) ||| (v <<< pos)) % 2 ^ w

/-- Reading `frame->data[j]`; indices stay in `[0,7]` for every descriptor
of the source table. -/
def readByte (data : Fin 8 → Nat) (j : Nat) : Nat :=
  if h : j < 8 then data ⟨j, h⟩ else 0

/-- Writing `frame->data[j]`. -/
def writeByte (data : Fin 8 → Nat) (j : Nat) (v : Nat) : Fin 8 → Nat :=
  if h : j < 8 then Function.update data ⟨j, h⟩ v else data

/-- `int byte_pos = BASE_BYTE - (i / 8);` -/
def bytePos (d : SignalDesc) (i : Nat) : Nat := d.base_byte - i / 8

/-- `int bit_pos = BASE_BIT + (i % 8);` -/
def bitPos (d : SignalDesc) (i : Nat) : Nat := d.base_bit + i % 8

/-- One iteration of the getter loop:
`SET_BIT(raw_value, i, GET_BIT(frame->data[byte_pos], bit_pos));` -/
def extractStep (d : SignalDesc) (data : Fin 8 → Nat) (raw i : Nat) : Nat :=
  SET_BIT 64 raw i (GET_BIT (readByte data (bytePos d i)) (bitPos d i))

/-- The getter loop `for (i = 0; i < bit_length; i++)` accumulating
`raw_value` from 0. -/
def extractRaw (d : SignalDesc) (data : Fin 8 → Nat) : Nat :=
  (List.range d.bit_length).foldl (extractStep d data) 0

/-- One iteration of the setter loop:
`uint8_t bit_val = GET_BIT(raw_value, i);`
`SET_BIT(frame->data[byte_pos], bit_pos, bit_val);` -/
def insertStep (d : SignalDesc) (raw : Nat) (data : Fin 8 → Nat) (i : Nat) :
    Fin 8 → Nat :=
  writeByte data (bytePos d i)
    (SET_BIT 8 (readByte data (bytePos d i)) (bitPos d i) (GET_BIT raw i))

/-- The setter loop `for (i = 0; i < bit_length; i++)` updating the payload. -/
def insertRaw (d : SignalDesc) (raw : Nat) (data : Fin 8 → Nat) : Fin 8 → Nat :=
  (List.range d.bit_length).foldl (insertStep d raw) data

/-- C `round` (half away from zero), exact over `ℚ`. -/
def roundC (q : ℚ) : ℤ := if q < 0 then -⌊-q + 1 / 2⌋ else ⌊q + 1 / 2⌋

/-- The `(uint64_t)` cast of the rounded raw value. -/
def castU64 (z : ℤ) : Nat := (z % 2 ^ 64).toNat

/-- The getter template `Get_<signal>(frame, value)`: id check, bit
extraction, affine transform, bounds check.  `none` models `return false`
(`*value` is then to be treated as unavailable), `some v` models
`return true` with `*value = v`. -/
def Get (d : SignalDesc) (frame : CAN_Frame) : Option ℚ :=
  if frame.id ≠ d.message_id then none
  else
    let raw := extractRaw d frame.data
    let value : ℚ := raw * d.scale + d.offset
    if value < d.min ∨ value > d.max then none else some value

/-- The setter template `Set_<signal>(frame, value)`: bounds check, inverse
transform with rounding and `uint64_t` cast, bit insertion, unconditional
`frame->id`/`frame->dlc` assignment.  The returned pair is the C boolean
result together with the frame state after the call (unchanged on
failure). -/
def Set (d : SignalDesc) (frame : CAN_Frame) (value : ℚ) : Bool × CAN_Frame :=
  if value < d.min ∨ value > d.max then (false, frame)
  else
    let raw := castU64 (roundC ((value - d.offset) / d.scale))
    (true, ⟨d.message_id, 8, insertRaw d raw frame.data⟩)

/-! The 57 signal descriptors transcribed from `ac_can.c`
(field order: message id, loop byte base, loop bit base, loop bound,
scale, offset, min, max). -/

def EMS3_F_EngineSpeed : SignalDesc := ⟨0x120, 1, 6, 1, 1, 0, 0, 1⟩
def EMS3_N_EngineSpeed : SignalDesc := ⟨0x120, 4, 7, 16, 1/4, 0, 0, 65535/4⟩
def BR1_N_VehicleSpeed : SignalDesc := ⟨0x130, 4, 6, 15, 1/100, 0, 0, 16383/50⟩
def PEPS1_St_RemoteControlSt : SignalDesc := ⟨0x166, 7, 5, 1, 1, 0, 0, 1⟩
def EMS2_St_ACON : SignalDesc := ⟨0x320, 1, 5, 1, 1, 0, 0, 1⟩
def EMS2_F_EngineTemp : SignalDesc := ⟨0x320, 1, 7, 1, 1, 0, 0, 1⟩
def EMS2_N_EngineTemp : SignalDesc := ⟨0x320, 2, 7, 8, 3/4, -48, -48, 285/2⟩
def EMS11_N_SoakTime : SignalDesc := ⟨0x322, 2, 7, 16, 1, 0, 0, 2047⟩
def TCM1_N_SLP : SignalDesc := ⟨0x326, 2, 7, 4, 1, 0, 0, 15⟩
def AUDIO7_St_FlowModeVoiceControl : SignalDesc := ⟨0x347, 2, 2, 3, 1, 0, 0, 7⟩
def AUDIO7_St_SetTempVoiceControl_L : SignalDesc := ⟨0x347, 2, 7, 5, 1/2, 18, 18, 32⟩
def AUDIO7_S_FrontDefrostVoiceControl : SignalDesc := ⟨0x347, 3, 4, 2, 1, 0, 0, 3⟩
def AUDIO7_S_AutoVoiceControl : SignalDesc := ⟨0x347, 3, 6, 2, 1, 0, 0, 3⟩
def AUDIO7_S_AirCirculateVoiceControl : SignalDesc := ⟨0x347, 4, 1, 2, 1, 0, 0, 3⟩
def AUDIO7_S_ACCompresSwitchVoiceControl : SignalDesc := ⟨0x347, 4, 3, 2, 1, 0, 0, 3⟩
def AUDIO7_S_CLMWorkVoiceControl : SignalDesc := ⟨0x347, 4, 5, 2, 1, 0, 0, 3⟩
def AUDIO7_S_SYNC : SignalDesc := ⟨0x347, 4, 7, 2, 1, 0, 0, 3⟩
def AUDIO7_St_BlowerSpdSetVoiceControl : SignalDesc := ⟨0x347, 5, 3, 4, 1, 0, 0, 15⟩
def AUDIO7_S_RearDefrostVoiceControl : SignalDesc := ⟨0x347, 6, 1, 2, 1, 0, 0, 3⟩
def AUDIO7_St_SetTempVoiceControl_R : SignalDesc := ⟨0x347, 6, 6, 5, 1/2, 18, 18, 32⟩
def BCM1_St_ReverseGear : SignalDesc := ⟨0x363, 4, 4, 1, 1, 0, 0, 1⟩
def BCM1_F_ReverseGear : SignalDesc := ⟨0x363, 4, 5, 1, 1, 0, 0, 1⟩
def BCM1_N_PM25Value : SignalDesc := ⟨0x363, 6, 1, 10, 1, 0, 0, 999⟩
def AC1_Checksum : SignalDesc := ⟨0x36C, 0, 7, 8, 1, 0, 0, 255⟩
def AC1_S_AC : SignalDesc := ⟨0x36C, 1, 7, 1, 1, 0, 0, 1⟩
def AC1_St_Blower : SignalDesc := ⟨0x36C, 4, 3, 4, 1, 0, 0, 15⟩
def AC1_H_L_PRESS_Sta : SignalDesc := ⟨0x36C, 5, 1, 2, 1, 0, 0, 3⟩
def AC1_St_AirCirculate : SignalDesc := ⟨0x36C, 6, 4, 2, 1, 0, 0, 3⟩
def AC1_MID_PRESS_Status : SignalDesc := ⟨0x36C, 6, 7, 1, 1, 0, 0, 1⟩
def AC1_St_FlowMode : SignalDesc := ⟨0x36C, 7, 2, 3, 1, 0, 0, 7⟩
def AUDIO4_S_PM25AirClean : SignalDesc := ⟨0x374, 1, 5, 2, 1, 0, 0, 3⟩
def AUDIO4_S_SetTempDown_R : SignalDesc := ⟨0x374, 1, 7, 1, 1, 0, 0, 1⟩
def AUDIO4_S_SetTempUp_L : SignalDesc := ⟨0x374, 2, 0, 1, 1, 0, 0, 1⟩
def AUDIO4_S_SetTempDown_L : SignalDesc := ⟨0x374, 2, 1, 1, 1, 0, 0, 1⟩
def AUDIO4_S_SYNC : SignalDesc := ⟨0x374, 2, 2, 1, 1, 0, 0, 1⟩
def AUDIO4_St_SetTemp_L : SignalDesc := ⟨0x374, 2, 7, 5, 1/2, 18, 18, 32⟩
def AUDIO4_S_TempLevelElectricAC : SignalDesc := ⟨0x374, 3, 5, 5, 1, 0, 0, 16⟩
def AUDIO4_St_SetBlower : SignalDesc := ⟨0x374, 4, 5, 4, 1, 0, 0, 15⟩
def AUDIO4_S_NegativeIon : SignalDesc := ⟨0x374, 5, 1, 1, 1, 0, 0, 1⟩
def AUDIO4_S_Auto : SignalDesc := ⟨0x374, 5, 2, 1, 1, 0, 0, 1⟩
def AUDIO4_S_AirCirculate : SignalDesc := ⟨0x374, 5, 3, 1, 1, 0, 0, 1⟩
def AUDIO4_S_ACCompresSwitch : SignalDesc := ⟨0x374, 5, 5, 1, 1, 0, 0, 1⟩
def AUDIO4_S_CLMOFF : SignalDesc := ⟨0x374, 5, 6, 1, 1, 0, 0, 1⟩
def AUDIO4_S_RearDefrost : SignalDesc := ⟨0x374, 6, 2, 1, 1, 0, 0, 1⟩
def AUDIO4_S_FRMPositionSet : SignalDesc := ⟨0x374, 6, 6, 4, 1, 0, 0, 15⟩
def AC2_Checksum : SignalDesc := ⟨0x46C, 0, 7, 8, 1, 0, 0, 255⟩
def AC2_N_InsideCarTemp : SignalDesc := ⟨0x46C, 2, 7, 8, 1/2, -50, -50, 77⟩
def AC2_N_EnvironmentTemp : SignalDesc := ⟨0x46C, 3, 7, 8, 1/2, -50, -50, 77⟩
def AC2_St_SetTempAutomaticAC_L : SignalDesc := ⟨0x46C, 5, 4, 5, 1/2, 18, 18, 32⟩
def AC2_St_TempLevelElectricAC : SignalDesc := ⟨0x46C, 6, 4, 5, 1, 0, 0, 16⟩
def AC2_St_FLSeatHeating : SignalDesc := ⟨0x46C, 7, 2, 3, 1, 0, 0, 7⟩
def AC2_St_RemoteControl : SignalDesc := ⟨0x46C, 7, 7, 1, 1, 0, 0, 1⟩
def TBOX1_St_FrontDefrost : SignalDesc := ⟨0x478, 1, 5, 2, 1, 0, 0, 3⟩
def TBOX1_St_CLM : SignalDesc := ⟨0x478, 2, 1, 2, 1, 0, 0, 2⟩
def TBOX1_St_ACSetTemp : SignalDesc := ⟨0x478, 4, 7, 5, 1/2, 18, 18, 32⟩
def AC4_Checksum : SignalDesc := ⟨0x57C, 0, 7, 8, 1, 0, 0, 255⟩
def AC4_Front_EVAP_Temp : SignalDesc := ⟨0x57C, 5, 7, 11, 1, -40, -40, 80⟩

/-- All signals of `ac_can.c`, in source order. -/
def sigTable : List SignalDesc :=
  [EMS3_F_EngineSpeed, EMS3_N_EngineSpeed, BR1_N_VehicleSpeed,
   PEPS1_St_RemoteControlSt, EMS2_St_ACON, EMS2_F_EngineTemp,
   EMS2_N_EngineTemp, EMS11_N_SoakTime, TCM1_N_SLP,
   AUDIO7_St_FlowModeVoiceControl, AUDIO7_St_SetTempVoiceControl_L,
   AUDIO7_S_FrontDefrostVoiceControl, AUDIO7_S_AutoVoiceControl,
   AUDIO7_S_AirCirculateVoiceControl, AUDIO7_S_ACCompresSwitchVoiceControl,
   AUDIO7_S_CLMWorkVoiceControl, AUDIO7_S_SYNC,
   AUDIO7_St_BlowerSpdSetVoiceControl, AUDIO7_S_RearDefrostVoiceControl,
   AUDIO7_St_SetTempVoiceControl_R, BCM1_St_ReverseGear, BCM1_F_ReverseGear,
   BCM1_N_PM25Value, AC1_Checksum, AC1_S_AC, AC1_St_Blower,
   AC1_H_L_PRESS_Sta, AC1_St_AirCirculate, AC1_MID_PRESS_Status,
   AC1_St_FlowMode, AUDIO4_S_PM25AirClean, AUDIO4_S_SetTempDown_R,
   AUDIO4_S_SetTempUp_L, AUDIO4_S_SetTempDown_L, AUDIO4_S_SYNC,
   AUDIO4_St_SetTemp_L, AUDIO4_S_TempLevelElectricAC, AUDIO4_St_SetBlower,
   AUDIO4_S_NegativeIon, AUDIO4_S_Auto, AUDIO4_S_AirCirculate,
   AUDIO4_S_ACCompresSwitch, AUDIO4_S_CLMOFF, AUDIO4_S_RearDefrost,
   AUDIO4_S_FRMPositionSet, AC2_Checksum, AC2_N_InsideCarTemp,
   AC2_N_EnvironmentTemp, AC2_St_SetTempAutomaticAC_L,
   AC2_St_TempLevelElectricAC, AC2_St_FLSeatHeating, AC2_St_RemoteControl,
   TBOX1_St_FrontDefrost, TBOX1_St_CLM, TBOX1_St_ACSetTemp, AC4_Checksum,
   AC4_Front_EVAP_Temp]

/-! Named accessors for the signals the claims mention by name. -/

def Get_EMS3_N_EngineSpeed : CAN_Frame → Option ℚ := Get EMS3_N_EngineSpeed
def Set_EMS3_N_EngineSpeed : CAN_Frame → ℚ → Bool × CAN_Frame :=
  Set EMS3_N_EngineSpeed
def Get_BR1_N_VehicleSpeed : CAN_Frame → Option ℚ := Get BR1_N_VehicleSpeed
def Set_BR1_N_VehicleSpeed : CAN_Frame → ℚ → Bool × CAN_Frame :=
  Set BR1_N_VehicleSpeed
def Get_EMS2_N_EngineTemp : CAN_Frame → Option ℚ := Get EMS2_N_EngineTemp
def Set_EMS2_N_EngineTemp : CAN_Frame → ℚ → Bool × CAN_Frame :=
  Set EMS2_N_EngineTemp
def Get_EMS2_St_ACON : CAN_Frame → Option ℚ := Get EMS2_St_ACON
def Set_EMS2_St_ACON : CAN_Frame → ℚ → Bool × CAN_Frame := Set EMS2_St_ACON
def Set_EMS3_F_EngineSpeed : CAN_Frame → ℚ → Bool × CAN_Frame :=
  Set EMS3_F_EngineSpeed

/-! Concrete frames used by the closed evaluations. -/

def zeroData : Fin 8 → Nat := fun _ => 0

def frame0 : CAN_Frame := ⟨0, 0, zeroData⟩

/-- A frame of message 0x320 whose byte 2 is 0x98 and all other bytes 0. -/
def frame320 : CAN_Frame := ⟨0x320, 8, fun j => if j.val = 2 then 0x98 else 0⟩

/-- A payload with bytes 3 and 4 equal to 0x01, all others 0. -/
def data34 : Fin 8 → Nat := fun j => if j.val = 3 ∨ j.val = 4 then 1 else 0

/-- Bit index, within its byte, of the signal's least significant bit under
the DBC big-endian layout (the loop's `base_bit` is the bit index of the
most significant bit, `base_byte` the byte of the least significant one). -/
def lsbBit (d : SignalDesc) : Nat :=
  (d.base_bit + 8 * d.bit_length - (d.bit_length - 1)) % 8

/-- Modelled from the spec: the byte/bit positions a signal occupies under
the reference DBC big-endian (Motorola) bit layout, listed from least to
most significant bit.  The most significant bit sits at the signal's start
bit and successive bits descend in significance within a byte before
continuing in the adjacent byte, so from the least significant bit upwards
the in-byte index climbs 0..7 and the byte index decreases. -/
def declaredPos (d : SignalDesc) : List (Nat × Nat) :=
  (List.range d.bit_length).map
    (fun i => (d.base_byte - (lsbBit d + i) / 8, (lsbBit d + i) % 8))

/-- Modelled from the spec: the reference DBC big-endian (Motorola)
extraction — raw value whose bit `i` (i = 0 least significant) is the
payload bit at the signal's position of significance `i` under the
reference layout. -/
def motorolaExtract (d : SignalDesc) (data : Fin 8 → Nat) : Nat :=
  (List.range d.bit_length).foldl
    (fun raw i =>
      raw + GET_BIT (readByte data (d.base_byte - (lsbBit d + i) / 8))
        ((lsbBit d + i) % 8) * 2 ^ i) 0

/-- The byte/bit positions the walking loop actually reads or writes: the
loop visits `(bytePos d i, bitPos d i)` for `i < bit_length`, but positions
with `bit_pos ≥ 8` address bits beyond a `uint8_t` and have no effect. -/
def touchedList (d : SignalDesc) : List (Nat × Nat) :=
  ((List.range d.bit_length).map (fun i => (bytePos d i, bitPos d i))).filter
    (fun p => decide (p.2 < 8))

/-! Evaluation helpers: the rational steps of the templates at concrete
arguments (kernel reduction cannot normalize `ℚ`, so these are proved with
`norm_num`-style reasoning instead of `decide`). -/

lemma roundC_natCast (n : Nat) : roundC n = n := by
  unfold roundC
  rw [if_neg (not_lt.mpr (Nat.cast_nonneg n)), Int.floor_nat_add]
  norm_num

lemma castU64_natCast (n : Nat) (h : n < 2 ^ 64) : castU64 n = n := by
  unfold castU64
  rw [Int.emod_eq_of_lt (by positivity) (by exact_mod_cast h)]
  exact Int.toNat_natCast n

lemma Set_eval (d : SignalDesc) (frame : CAN_Frame) (value : ℚ) (n : Nat)
    (hcond : ¬(value < d.min ∨ value > d.max))
    (hq : (value - d.offset) / d.scale = (n : ℚ)) (hn : n < 2 ^ 64) :
    Set d frame value = (true, ⟨d.message_id, 8, insertRaw d n frame.data⟩) := by
  unfold Set
  rw [if_neg hcond, hq, roundC_natCast, castU64_natCast _ hn]

lemma Get_eval_some (d : SignalDesc) (frame : CAN_Frame)
    (hid : frame.id = d.message_id) (n : Nat)
    (hraw : extractRaw d frame.data = n)
    (hcond : ¬((n : ℚ) * d.scale + d.offset < d.min ∨
      (n : ℚ) * d.scale + d.offset > d.max)) :
    Get d frame = some ((n : ℚ) * d.scale + d.offset) := by
  unfold Get
  rw [if_neg (by simp [hid]), hraw, if_neg hcond]

/-! Bit-level facts about `GET_BIT`/`SET_BIT` and the walking loops. -/

lemma GET_BIT_eq_testBit (y j : Nat) :
    GET_BIT y j = if y.testBit j then 1 else 0 := by
  unfold GET_BIT
  rw [Nat.and_one_is_mod, Nat.shiftRight_eq_div_pow, Nat.testBit_to_div_mod]
  rcases Nat.mod_two_eq_zero_or_one (y / 2 ^ j) with h | h <;> simp [h]

lemma GET_BIT_le_one (y j : Nat) : GET_BIT y j ≤ 1 := by
  rw [GET_BIT_eq_testBit]
  split <;> simp

lemma GET_BIT_of_lt (y j : Nat) (hy : y < 2 ^ j) : GET_BIT y j = 0 := by
  unfold GET_BIT
  rw [Nat.shiftRight_eq_div_pow, Nat.div_eq_of_lt hy]
  rfl

lemma GET_BIT_high (y j : Nat) (hy : y < 256) (hj : 8 ≤ j) : GET_BIT y j = 0 := by
  apply GET_BIT_of_lt
  calc y < 256 := hy
    _ = 2 ^ 8 := by norm_num
    _ ≤ 2 ^ j := Nat.pow_le_pow_right (by norm_num) hj

lemma testBit_SET_BIT8_ne (x pos v j : Nat) (hj : j < 8) (hne : j ≠ pos)
    (hv : v ≤ 1) : (SET_BIT 8 x pos v).testBit j = x.testBit j := by
  have h64 : j < 64 := by omega
  unfold SET_BIT
  rcases Nat.le_one_iff_eq_zero_or_eq_one.mp hv with rfl | rfl
  · rw [Nat.zero_shiftLeft, Nat.one_shiftLeft, Nat.testBit_mod_two_pow,
      Nat.testBit_lor, Nat.testBit_land, Nat.testBit_xor,
      Nat.testBit_two_pow_sub_one, Nat.testBit_two_pow]
    simp [hj, h64, Ne.symm hne]
  · rw [Nat.one_shiftLeft, Nat.testBit_mod_two_pow, Nat.testBit_lor,
      Nat.testBit_land, Nat.testBit_xor, Nat.testBit_two_pow_sub_one,
      Nat.testBit_two_pow]
    simp [hj, h64, Ne.symm hne]

lemma GET_BIT_SET_BIT8_ne (x pos v j : Nat) (hj : j < 8) (hne : j ≠ pos)
    (hv : v ≤ 1) : GET_BIT (SET_BIT 8 x pos v) j = GET_BIT x j := by
  rw [GET_BIT_eq_testBit, GET_BIT_eq_testBit, testBit_SET_BIT8_ne x pos v j hj hne hv]

lemma readByte_lt (data : Fin 8 → Nat) (hd : ∀ b, data b < 256) (j : Nat) :
    readByte data j < 256 := by
  unfold readByte
  split
  · exact hd _
  · norm_num

lemma writeByte_ge (data : Fin 8 → Nat) (p v : Nat) (h : 8 ≤ p) :
    writeByte data p v = data := by
  unfold writeByte
  rw [dif_neg (not_lt.mpr h)]

lemma writeByte_apply_ne (data : Fin 8 → Nat) (p v : Nat) (b : Fin 8)
    (h : p ≠ b.val) : writeByte data p v b = data b := by
  unfold writeByte
  by_cases hp : p < 8
  · rw [dif_pos hp]
    exact Function.update_noteq (by simp [Fin.ext_iff]; exact fun hh => h hh.symm) _ _
  · rw [dif_neg hp]

lemma readByte_writeByte_ne (data : Fin 8 → Nat) (p v b : Nat) (h : p ≠ b) :
    readByte (writeByte data p v) b = readByte data b := by
  unfold readByte
  by_cases hb : b < 8
  · rw [dif_pos hb, dif_pos hb]
    exact writeByte_apply_ne data p v ⟨b, hb⟩ h
  · rw [dif_neg hb, dif_neg hb]

lemma readByte_writeByte_self (data : Fin 8 → Nat) (p v : Nat) (hp : p < 8) :
    readByte (writeByte data p v) p = v := by
  unfold readByte writeByte
  rw [dif_pos hp, dif_pos hp]
  exact Function.update_same _ _ _

lemma foldl_insertStep_apply_ne (d : SignalDesc) (raw : Nat) :
    ∀ (l : List Nat) (data : Fin 8 → Nat) (b : Fin 8),
      (∀ i ∈ l, bytePos d i ≠ b.val) →
      (l.foldl (insertStep d raw) data) b = data b := by
  intro l
  induction l with
  | nil => intro data b _; rfl
  | cons i t ih =>
    intro data b h
    rw [List.foldl_cons, ih _ b (fun k hk => h k (List.mem_cons_of_mem i hk))]
    exact writeByte_apply_ne _ _ _ b (h i (List.mem_cons_self i t))

lemma foldl_insertStep_getbit_ne (d : SignalDesc) (raw : Nat) :
    ∀ (l : List Nat) (data : Fin 8 → Nat) (b j : Nat), j < 8 →
      (∀ i ∈ l, bytePos d i ≠ b ∨ bitPos d i ≠ j) →
      GET_BIT (readByte (l.foldl (insertStep d raw) data) b) j
        = GET_BIT (readByte data b) j := by
  intro l
  induction l with
  | nil => intro data b j _ _; rfl
  | cons i t ih =>
    intro data b j hj h
    rw [List.foldl_cons,
      ih _ b j hj (fun k hk => h k (List.mem_cons_of_mem i hk))]
    rcases h i (List.mem_cons_self i t) with hb | hbit
    · unfold insertStep
      rw [readByte_writeByte_ne _ _ _ _ hb]
    · unfold insertStep
      by_cases hbb : bytePos d i = b
      · by_cases h8 : bytePos d i < 8
        · rw [hbb] at h8 ⊢
          rw [readByte_writeByte_self _ _ _ h8]
          exact GET_BIT_SET_BIT8_ne _ _ _ _ hj (Ne.symm hbit) (GET_BIT_le_one raw i)
        · rw [writeByte_ge _ _ _ (not_lt.mp h8)]
      · rw [readByte_writeByte_ne _ _ _ _ hbb]

lemma foldl_insertStep_lt (d : SignalDesc) (raw : Nat) :
    ∀ (l : List Nat) (data : Fin 8 → Nat), (∀ b, data b < 256) →
      ∀ b, (l.foldl (insertStep d raw) data) b < 256 := by
  intro l
  induction l with
  | nil => intro data h b; exact h b
  | cons i t ih =>
    intro data h b
    rw [List.foldl_cons]
    refine ih _ ?_ b
    intro c
    by_cases h8 : bytePos d i < 8
    · unfold insertStep writeByte
      rw [dif_pos h8]
      rcases eq_or_ne c ⟨bytePos d i, h8⟩ with rfl | hne
      · rw [Function.update_same]
        unfold SET_BIT
        exact Nat.mod_lt _ (by norm_num)
      · rw [Function.update_noteq hne]
        exact h c
    · unfold insertStep
      rw [writeByte_ge _ _ _ (not_lt.mp h8)]
      exact h c

lemma insertRaw_apply_ne (d : SignalDesc) (raw : Nat) (data : Fin 8 → Nat)
    (b : Fin 8) (h : ∀ i < d.bit_length, bytePos d i ≠ b.val) :
    insertRaw d raw data b = data b :=
  foldl_insertStep_apply_ne d raw _ data b
    (fun i hi => h i (List.mem_range.mp hi))

lemma insertRaw_getbit_ne (d : SignalDesc) (raw : Nat) (data : Fin 8 → Nat)
    (b j : Nat) (hj : j < 8)
    (h : ∀ i < d.bit_length, bytePos d i ≠ b ∨ bitPos d i ≠ j) :
    GET_BIT (readByte (insertRaw d raw data) b) j
      = GET_BIT (readByte data b) j :=
  foldl_insertStep_getbit_ne d raw _ data b j hj
    (fun i hi => h i (List.mem_range.mp hi))

lemma insertRaw_lt (d : SignalDesc) (raw : Nat) (data : Fin 8 → Nat)
    (h : ∀ b, data b < 256) : ∀ b, insertRaw d raw data b < 256 :=
  foldl_insertStep_lt d raw _ data h

lemma extractRaw_congr (d : SignalDesc) (data1 data2 : Fin 8 → Nat)
    (h : ∀ i < d.bit_length,
      GET_BIT (readByte data1 (bytePos d i)) (bitPos d i)
        = GET_BIT (readByte data2 (bytePos d i)) (bitPos d i)) :
    extractRaw d data1 = extractRaw d data2 := by
  unfold extractRaw
  apply List.foldl_ext
  intro acc i hi
  unfold extractStep
  rw [h i (List.mem_range.mp hi)]

lemma Get_congr_frame (d : SignalDesc) (f1 f2 : CAN_Frame)
    (hid : f1.id = f2.id) (hext : extractRaw d f1.data = extractRaw d f2.data) :
    Get d f1 = Get d f2 := by
  unfold Get
  rw [hid, hext]

set_option maxRecDepth 100000 in
set_option maxHeartbeats 1000000 in
/-- Table scan: within every message of the source table, signals whose
declared (reference-layout) bit ranges are disjoint also have disjoint
actually-touched bit positions. -/
lemma table_touched_disjoint :
    ∀ A ∈ sigTable, ∀ B ∈ sigTable, A.message_id = B.message_id →
      (∀ p ∈ declaredPos A, p ∉ declaredPos B) →
      ∀ p ∈ touchedList A, p ∉ touchedList B := by decide

lemma bytePos_mem_declared (d : SignalDesc) (i : Nat) (hi : i < d.bit_length) :
    ∃ p ∈ declaredPos d, p.1 = bytePos d i := by
  have hl : lsbBit d < 8 := Nat.mod_lt _ (by norm_num)
  refine ⟨(d.base_byte - (lsbBit d + (8 * (i / 8) - lsbBit d)) / 8,
    (lsbBit d + (8 * (i / 8) - lsbBit d)) % 8), ?_, ?_⟩
  · unfold declaredPos
    exact List.mem_map.mpr
      ⟨8 * (i / 8) - lsbBit d, List.mem_range.mpr (by omega), rfl⟩
  · show d.base_byte - (lsbBit d + (8 * (i / 8) - lsbBit d)) / 8 = bytePos d i
    unfold bytePos
    congr 1
    omega

/-- Core of the non-interference argument: two setter calls whose loops
touch disjoint payload bit positions, on the same message, do not disturb
each other's decode. -/
lemma Set_Set_Get (A B : SignalDesc) (hmsg : A.message_id = B.message_id)
    (htouch : ∀ p ∈ touchedList A, p ∉ touchedList B)
    (frame : CAN_Frame) (hinv : ∀ b, frame.data b < 256) (a b : ℚ)
    (hcondA : ¬(a < A.min ∨ a > A.max)) (hcondB : ¬(b < B.min ∨ b > B.max)) :
    Get A (Set B (Set A frame a).2 b).2 = Get A (Set A frame a).2 := by
  simp only [Set, if_neg hcondA, if_neg hcondB]
  apply Get_congr_frame
  · exact hmsg.symm
  · apply extractRaw_congr
    intro i hi
    by_cases h8 : bitPos A i < 8
    · have hmemA : (bytePos A i, bitPos A i) ∈ touchedList A := by
        unfold touchedList
        rw [List.mem_filter]
        exact ⟨List.mem_map.mpr ⟨i, List.mem_range.mpr hi, rfl⟩,
          by simpa using h8⟩
      have hnot := htouch _ hmemA
      apply insertRaw_getbit_ne _ _ _ _ _ h8
      intro k hk
      by_cases hk8 : bitPos B k < 8
      · by_contra hcon
        push_neg at hcon
        refine hnot ?_
        unfold touchedList
        rw [List.mem_filter]
        exact ⟨List.mem_map.mpr
          ⟨k, List.mem_range.mpr hk, by rw [hcon.1, hcon.2]⟩,
          by simpa using h8⟩
      · exact Or.inr (by omega)
    · have hA256 : ∀ c,
          insertRaw A (castU64 (roundC ((a - A.offset) / A.scale)))
            frame.data c < 256 :=
        insertRaw_lt _ _ _ hinv
      rw [GET_BIT_high _ _ (readByte_lt _ (insertRaw_lt _ _ _ hA256) _) (by omega),
        GET_BIT_high _ _ (readByte_lt _ hA256 _) (by omega)]

/-- C1: the claimed per-signal round trip fails on the code.  Writing the
physical value 0.5 (raw value r = 2) with `Set_EMS3_N_EngineSpeed` into the
zero frame and reading it back with `Get_EMS3_N_EngineSpeed` succeeds but
recovers raw value 0 (physical 0.0), not r = 2: the loop's
`bit_pos = 7 + (i % 8)` exceeds 7 for every i with `i % 8 > 0`, so those
raw bits are dropped on both encode and decode. -/
theorem EMS3_N_EngineSpeed_roundtrip_fails :
    (Set_EMS3_N_EngineSpeed frame0 (1/2)).1 = true ∧
    extractRaw EMS3_N_EngineSpeed (Set_EMS3_N_EngineSpeed frame0 (1/2)).2.data
      = 0 ∧
    Get_EMS3_N_EngineSpeed (Set_EMS3_N_EngineSpeed frame0 (1/2)).2 = some 0 ∧
    (0 : ℚ) ≠ 1/2 := by
  have hset := Set_eval EMS3_N_EngineSpeed frame0 (1/2) 2
    (by norm_num [EMS3_N_EngineSpeed])
    (by norm_num [EMS3_N_EngineSpeed]) (by norm_num)
  rw [Set_EMS3_N_EngineSpeed, Get_EMS3_N_EngineSpeed, hset]
  refine ⟨rfl, by decide, ?_, by norm_num⟩
  have hget := Get_eval_some EMS3_N_EngineSpeed
    ⟨EMS3_N_EngineSpeed.message_id, 8, insertRaw EMS3_N_EngineSpeed 2 frame0.data⟩
    rfl 0 (by decide) (by norm_num [EMS3_N_EngineSpeed])
  rw [hget]
  norm_num [EMS3_N_EngineSpeed]

/-- C2: the per-bit walking loop is not equivalent to the reference DBC
big-endian (Motorola) extraction.  On the payload with bytes 3 and 4 equal
to 0x01, the 16-bit loop of `Get_EMS3_N_EngineSpeed` (base byte 4, base
bit 7) extracts 0 while the Motorola reference extraction for that start
bit and bit length yields 257. -/
theorem EMS3_N_EngineSpeed_loop_ne_motorola :
    extractRaw EMS3_N_EngineSpeed data34 = 0 ∧
    motorolaExtract EMS3_N_EngineSpeed data34 = 257 ∧
    extractRaw EMS3_N_EngineSpeed data34 ≠
      motorolaExtract EMS3_N_EngineSpeed data34 := by
  refine ⟨by decide, by decide, by decide⟩

/-- C3: the claimed concrete decode fails on the code.  On a frame of
message 0x320 with byte 2 equal to 0x98 (= 152), `Get_EMS2_N_EngineTemp`
returns success but yields 1 * 0.75 + (-48) = -47.25 (only bit 7 of byte 2
is actually read), not the claimed 152 * 0.75 + (-48) = 66.0. -/
theorem EMS2_N_EngineTemp_decode_0x98 :
    Get_EMS2_N_EngineTemp frame320 = some (-189/4) ∧ ((-189/4 : ℚ) ≠ 66) := by
  have hget := Get_eval_some EMS2_N_EngineTemp frame320 rfl 1
    (by decide) (by norm_num [EMS2_N_EngineTemp])
  rw [Get_EMS2_N_EngineTemp, hget]
  norm_num [EMS2_N_EngineTemp]

/-- C4: the claimed encode/decode scenario fails on the code.
`Set_BR1_N_VehicleSpeed(frame, 100.00)` succeeds and computes
raw = 10000 = 0x2710, but only raw bits 0, 1, 8, 9 reach the payload
(loop bit positions beyond 7 are dropped by the `uint8_t` store), and
re-decoding yields raw 768, i.e. 7.68 km/h, not 100.00. -/
theorem BR1_N_VehicleSpeed_encode_decode_100 :
    (Set_BR1_N_VehicleSpeed frame0 100).1 = true ∧
    Get_BR1_N_VehicleSpeed (Set_BR1_N_VehicleSpeed frame0 100).2
      = some (192/25) ∧ ((192/25 : ℚ) ≠ 100) := by
  have hset := Set_eval BR1_N_VehicleSpeed frame0 100 10000
    (by norm_num [BR1_N_VehicleSpeed])
    (by norm_num [BR1_N_VehicleSpeed]) (by norm_num)
  rw [Set_BR1_N_VehicleSpeed, Get_BR1_N_VehicleSpeed, hset]
  refine ⟨rfl, ?_, by norm_num⟩
  have hget := Get_eval_some BR1_N_VehicleSpeed
    ⟨BR1_N_VehicleSpeed.message_id, 8, insertRaw BR1_N_VehicleSpeed 10000 frame0.data⟩
    rfl 768 (by decide) (by norm_num [BR1_N_VehicleSpeed])
  rw [hget]
  norm_num [BR1_N_VehicleSpeed]

/-- C5: non-interference within a message.  For every pair of distinct
signals of the source table that belong to the same message id and occupy
disjoint declared bit ranges, encoding A with an in-range value and then
encoding B with an in-range value into the same frame leaves A's decode
unchanged: reading A after B was encoded yields the same result as before. -/
theorem set_set_non_interference :
    ∀ A ∈ sigTable, ∀ B ∈ sigTable, A ≠ B → A.message_id = B.message_id →
      (∀ p ∈ declaredPos A, p ∉ declaredPos B) →
      ∀ (frame : CAN_Frame), (∀ b, frame.data b < 256) →
      ∀ a b : ℚ, A.min ≤ a → a ≤ A.max → B.min ≤ b → b ≤ B.max →
      Get A (Set B (Set A frame a).2 b).2 = Get A (Set A frame a).2 := by
  intro A hA B hB _ hmsg hdisj frame hinv a b ha1 ha2 hb1 hb2
  exact Set_Set_Get A B hmsg (table_touched_disjoint A hA B hB hmsg hdisj)
    frame hinv a b
    (by push_neg; exact ⟨ha1, ha2⟩) (by push_neg; exact ⟨hb1, hb2⟩)

/-- C5 witness: instantiation at `EMS2_St_ACON` and `EMS2_N_EngineTemp`
(both of message 0x320) on the zero frame with values 1 and 66. -/
theorem set_set_non_interference_witness :
    Get EMS2_St_ACON (Set EMS2_N_EngineTemp (Set EMS2_St_ACON frame0 1).2 66).2
      = Get EMS2_St_ACON (Set EMS2_St_ACON frame0 1).2 :=
  set_set_non_interference EMS2_St_ACON (by simp [sigTable])
    EMS2_N_EngineTemp (by simp [sigTable])
    (fun h => absurd (congrArg SignalDesc.base_byte h) (by decide)) rfl
    (by decide) frame0 (by decide) 1 66
    (by norm_num [EMS2_St_ACON]) (by norm_num [EMS2_St_ACON])
    (by norm_num [EMS2_N_EngineTemp]) (by norm_num [EMS2_N_EngineTemp])

/-- C6: range enforcement on encode.  For every signal with a well-formed
range, the setter fails exactly when the value lies strictly outside
[min, max], and succeeds at exactly min and exactly max. -/
theorem set_range_enforcement (d : SignalDesc) (hminmax : d.min ≤ d.max)
    (frame : CAN_Frame) (value : ℚ) :
    ((Set d frame value).1 = false ↔ (value < d.min ∨ value > d.max)) ∧
    (Set d frame d.min).1 = true ∧ (Set d frame d.max).1 = true := by
  refine ⟨?_, ?_, ?_⟩
  · by_cases hc : value < d.min ∨ value > d.max
    · unfold Set
      rw [if_pos hc]
      simpa using hc
    · unfold Set
      rw [if_neg hc]
      simpa using hc
  · unfold Set
    rw [if_neg (by push_neg; exact ⟨le_refl _, hminmax⟩)]
  · unfold Set
    rw [if_neg (by push_neg; exact ⟨hminmax, le_refl _⟩)]

/-- C6 witness: `Set_EMS2_N_EngineTemp` (range [-48, 142.5]) at value -49. -/
theorem set_range_enforcement_witness :
    ((Set EMS2_N_EngineTemp frame0 (-49)).1 = false ↔
      ((-49 : ℚ) < EMS2_N_EngineTemp.min ∨ (-49 : ℚ) > EMS2_N_EngineTemp.max)) ∧
    (Set EMS2_N_EngineTemp frame0 EMS2_N_EngineTemp.min).1 = true ∧
    (Set EMS2_N_EngineTemp frame0 EMS2_N_EngineTemp.max).1 = true :=
  set_range_enforcement EMS2_N_EngineTemp (by norm_num [EMS2_N_EngineTemp])
    frame0 (-49)

/-- C7: encode atomicity.  For every signal's setter and every frame, if the
value lies outside [min, max] the call returns false and the frame state —
identifier, dlc and all 8 payload bytes — is exactly the input frame. -/
theorem set_out_of_range_unmodified (d : SignalDesc) (frame : CAN_Frame)
    (value : ℚ) (h : value < d.min ∨ value > d.max) :
    Set d frame value = (false, frame) := by
  unfold Set
  rw [if_pos h]

/-- C7 witness: `Set_EMS3_N_EngineSpeed` at 20000 (above max 16383.75) on a
nonzero frame. -/
theorem set_out_of_range_unmodified_witness :
    Set EMS3_N_EngineSpeed frame320 20000 = (false, frame320) :=
  set_out_of_range_unmodified EMS3_N_EngineSpeed frame320 20000
    (Or.inr (by norm_num [EMS3_N_EngineSpeed]))

/-- C8: identifier gating on decode.  For every signal's getter and every
frame whose identifier differs from the signal's message id, the getter
fails regardless of the payload contents. -/
theorem get_wrong_id_fails (d : SignalDesc) (frame : CAN_Frame)
    (h : frame.id ≠ d.message_id) : Get d frame = none := by
  unfold Get
  rw [if_pos h]

/-- C8 witness: `Get_EMS3_N_EngineSpeed` (message 0x120) on a frame with
identifier 0x320. -/
theorem get_wrong_id_fails_witness :
    Get EMS3_N_EngineSpeed frame320 = none :=
  get_wrong_id_fails EMS3_N_EngineSpeed frame320 (by decide)

/-- C9: encode success side effects and frame preservation.  Whenever a
setter succeeds it sets the frame identifier to the signal's message id and
the dlc to 8, and every payload byte containing no position of the signal's
declared bit span keeps its previous value. -/
theorem set_success_side_effects (d : SignalDesc) (frame : CAN_Frame)
    (value : ℚ) (h : (Set d frame value).1 = true) :
    (Set d frame value).2.id = d.message_id ∧
    (Set d frame value).2.dlc = 8 ∧
    ∀ b : Fin 8, (∀ p ∈ declaredPos d, p.1 ≠ b.val) →
      (Set d frame value).2.data b = frame.data b := by
  by_cases hc : value < d.min ∨ value > d.max
  · exfalso
    unfold Set at h
    rw [if_pos hc] at h
    exact Bool.false_ne_true h
  · have hS : Set d frame value = (true,
        ⟨d.message_id, 8,
          insertRaw d (castU64 (roundC ((value - d.offset) / d.scale)))
            frame.data⟩) := by
      unfold Set
      rw [if_neg hc]
    rw [hS]
    refine ⟨rfl, rfl, ?_⟩
    intro b hb
    show insertRaw d _ frame.data b = frame.data b
    apply insertRaw_apply_ne
    intro i hi
    obtain ⟨p, hp, hpe⟩ := bytePos_mem_declared d i hi
    rw [← hpe]
    exact hb p hp

/-- C9 witness: `Set_EMS2_N_EngineTemp` at 66 on a nonzero frame; byte 5 is
outside the signal's span (byte 2) and is preserved. -/
theorem set_success_side_effects_witness :
    (Set EMS2_N_EngineTemp frame320 66).2.id = EMS2_N_EngineTemp.message_id ∧
    (Set EMS2_N_EngineTemp frame320 66).2.dlc = 8 ∧
    (Set EMS2_N_EngineTemp frame320 66).2.data 5 = frame320.data 5 := by
  have hs : (Set EMS2_N_EngineTemp frame320 66).1 = true := by
    unfold Set
    rw [if_neg (by norm_num [EMS2_N_EngineTemp])]
  have h := set_success_side_effects EMS2_N_EngineTemp frame320 66 hs
  exact ⟨h.1, h.2.1, h.2.2 5 (by decide)⟩

/-- C10: setters never inspect the frame's prior state.  For every signal's
setter and every frame — arbitrary prior identifier, dlc and payload —
the call succeeds whenever min ≤ value ≤ max; there is no identifier check
and no failure mode besides the range rejection. -/
theorem set_inrange_succeeds (d : SignalDesc) (frame : CAN_Frame) (value : ℚ)
    (h1 : d.min ≤ value) (h2 : value ≤ d.max) :
    (Set d frame value).1 = true := by
  unfold Set
  rw [if_neg (by push_neg; exact ⟨h1, h2⟩)]

/-- C10 witness: `Set_EMS3_F_EngineSpeed` (message 0x120) succeeds on a
frame currently carrying message 0x320. -/
theorem set_inrange_succeeds_witness :
    (Set EMS3_F_EngineSpeed frame320 1).1 = true :=
  set_inrange_succeeds EMS3_F_EngineSpeed frame320 1
    (by norm_num [EMS3_F_EngineSpeed]) (by norm_num [EMS3_F_EngineSpeed])

end AcCan
